import Mathlib

/-!
Verification of the host-side Bluetooth LE control layer of TizenRT
(`os/net/bluetooth/bluetooth.c`): the advertising-data encoder (`set_ad`),
the device name accessors, the enable pipeline (`bt_enable`), the identity
address manager (`bt_id_create` / `bt_id_reset` / `bt_id_delete` /
`bt_set_id_addr`) and the LE scan controller (`valid_le_scan_param`,
`bt_le_scan_start`).

The development is a shallow embedding: every C function of interest is
translated to a pure Lean function; the global `g_btdev` device structure
becomes an explicit `BtDev` state threaded through the functions, and the
HCI transport collaborator (`bt_hci_cmd_create` / `bt_hci_cmd_send_sync`)
is modelled by a list of pending synchronous command results (`tr`) plus a
trace of the commands that were issued.  Machine integers are modelled by
`Nat` (all quantities involved stay far below their C width), except where
the C code can compute a negative value (`int len` inside `set_ad`), where
`Int` is used.
-/

/-! ## Error numbers

Modelled from the spec: the numeric errno values come from the system
headers, which are not part of the analysed source; only their identities
matter.  The values below are the conventional ones. -/

def ENOENT : Int := 2
def EAGAIN : Int := 11
def ENOMEM : Int := 12
def EBUSY : Int := 16
def ENODEV : Int := 19
def EINVAL : Int := 22
def ENOBUFS : Int := 105
def EALREADY : Int := 114

/-! ## Bluetooth constants

Modelled from the spec: these come from `tinyara/bluetooth/bluetooth.h` and
`bt_hcicore.h`, which are not part of the analysed source.  The values are
the standard Bluetooth assigned numbers / HCI opcodes. -/

def BT_DATA_NAME_SHORTENED : Nat := 0x08
def BT_DATA_NAME_COMPLETE : Nat := 0x09

def BT_HCI_OP_LE_SET_ADV_DATA : Nat := 0x2008
def BT_HCI_OP_LE_SET_SCAN_RSP_DATA : Nat := 0x2009
def BT_HCI_OP_LE_SET_ADV_ENABLE : Nat := 0x200a

def BT_LE_SCAN_PASSIVE : Nat := 0x00
def BT_LE_SCAN_ACTIVE : Nat := 0x01
def BT_LE_SCAN_DISABLE : Nat := 0x00
def BT_LE_SCAN_ENABLE : Nat := 0x01
def BT_LE_SCAN_FILTER_DUP_DISABLE : Nat := 0x00
def BT_LE_SCAN_FILTER_DUP_ENABLE : Nat := 0x01

def BT_ADDR_LE_PUBLIC : Nat := 0x00
def BT_ADDR_LE_RANDOM : Nat := 0x01

def BT_ID_DEFAULT : Nat := 0

/-- Modelled from the spec: the maximum device-name buffer size
(`sizeof(g_btdev.name)`); the `bt_dev_s` structure lives in `bt_hcicore.h`,
which is not part of the analysed source.  The spec only requires a fixed
maximum length; 248 is the BLE maximum. -/
def nameBufSize : Nat := 248

/-- Modelled from the spec: the configured default device name
(`CONFIG_BT_DEVICE_NAME`), a Kconfig value not part of the analysed
source.  The bytes spell "TizenRT". -/
def CONFIG_BT_DEVICE_NAME : List Nat := [84, 105, 122, 101, 110, 82, 84]

/-! ## Addresses -/

/-- `bt_addr_le_t`: an address type byte plus six value bytes.  The value
bytes are modelled as a list (index 0 first, as in the C array). -/
structure BtAddrLE where
  type : Nat
  val : List Nat
  deriving DecidableEq, Repr

/-- `BT_ADDR_LE_ANY`: the all-zero (wildcard) address. -/
def BT_ADDR_LE_ANY : BtAddrLE := ⟨BT_ADDR_LE_PUBLIC, [0, 0, 0, 0, 0, 0]⟩

/-- `BT_ADDR_IS_STATIC`: the two top bits of the last value byte are
both set (`(a->val[5] & 0xc0) == 0xc0`). -/
def BT_ADDR_IS_STATIC (a : BtAddrLE) : Bool :=
  Nat.land (a.val.getD 5 0) 0xc0 == 0xc0

/-- `bt_addr_le_create_static` applied to a raw 6-byte random draw:
`create_random_addr` sets the type to `BT_ADDR_LE_RANDOM` and uses the
draw as the value bytes, then `BT_ADDR_SET_STATIC` sets the top two bits
of the last byte (`val[5] |= 0xc0`). -/
def staticFromDraw (d : List Nat) : BtAddrLE :=
  ⟨BT_ADDR_LE_RANDOM, d.set 5 (Nat.lor (d.getD 5 0) 0xc0)⟩

/-! ## Device flags (`g_btdev.flags`) -/

inductive BtFlag where
  | enable
  | ready
  | advertising
  | advertisingName
  | scanning
  | activeScan
  | explicitScan
  | scanFilterDup
  | userIdAddr
  deriving DecidableEq, Repr

/-- The atomic flag bitset of `bt_dev_s`, one field per bit of interest. -/
structure BtFlags where
  enable : Bool
  ready : Bool
  advertising : Bool
  advertisingName : Bool
  scanning : Bool
  activeScan : Bool
  explicitScan : Bool
  scanFilterDup : Bool
  userIdAddr : Bool
  deriving DecidableEq, Repr

def noFlags : BtFlags := ⟨false, false, false, false, false, false, false, false, false⟩

/-- `bt_atomic_testbit`. -/
def btAtomicTestbit (f : BtFlags) : BtFlag → Bool
  | .enable => f.enable
  | .ready => f.ready
  | .advertising => f.advertising
  | .advertisingName => f.advertisingName
  | .scanning => f.scanning
  | .activeScan => f.activeScan
  | .explicitScan => f.explicitScan
  | .scanFilterDup => f.scanFilterDup
  | .userIdAddr => f.userIdAddr

/-- `bt_atomic_setbit`. -/
def btAtomicSetbit (f : BtFlags) : BtFlag → BtFlags
  | .enable => { f with enable := true }
  | .ready => { f with ready := true }
  | .advertising => { f with advertising := true }
  | .advertisingName => { f with advertisingName := true }
  | .scanning => { f with scanning := true }
  | .activeScan => { f with activeScan := true }
  | .explicitScan => { f with explicitScan := true }
  | .scanFilterDup => { f with scanFilterDup := true }
  | .userIdAddr => { f with userIdAddr := true }

/-- `bt_atomic_clrbit`. -/
def btAtomicClrbit (f : BtFlags) : BtFlag → BtFlags
  | .enable => { f with enable := false }
  | .ready => { f with ready := false }
  | .advertising => { f with advertising := false }
  | .advertisingName => { f with advertisingName := false }
  | .scanning => { f with scanning := false }
  | .activeScan => { f with activeScan := false }
  | .explicitScan => { f with explicitScan := false }
  | .scanFilterDup => { f with scanFilterDup := false }
  | .userIdAddr => { f with userIdAddr := false }

/-- `bt_atomic_testsetbit`: returns the previous value and sets the bit. -/
def btAtomicTestsetbit (f : BtFlags) (b : BtFlag) : Bool × BtFlags :=
  (btAtomicTestbit f b, btAtomicSetbit f b)

/-! ## Device state (`g_btdev`) -/

/-- The fields of `struct bt_dev_s g_btdev` that the analysed functions
touch.  `idAddr` has fixed length (the table capacity
`ARRAY_SIZE(g_btdev.id_addr)`); `driver` records whether an HCI driver has
been registered (`g_btdev.btdev != NULL`); `workPending` models the one
outstanding HPWORK item of `k_work_submit`; `scanCb` records whether
`scan_dev_found_cb` has been set. -/
structure BtDev where
  flags : BtFlags
  name : List Nat
  idAddr : List BtAddrLE
  idCount : Nat
  advId : Nat
  advEnable : Bool
  driver : Bool
  workPending : Bool
  scanCb : Bool
  deriving DecidableEq, Repr

/-- The load-time zero-initialised `g_btdev` with an identity table of
capacity `cap` (the capacity `CONFIG_BT_ID_MAX` is configuration-defined
and not part of the analysed source; the model is parametric in it). -/
def initState (cap : Nat) : BtDev :=
  { flags := noFlags
    name := []
    idAddr := List.replicate cap BT_ADDR_LE_ANY
    idCount := 0
    advId := 0
    advEnable := false
    driver := false
    workPending := false
    scanCb := false }

/-- The identity table entry at index `i` (out-of-range reads yield the
zero address, matching the zero-initialised C array). -/
def slot (s : BtDev) (i : Nat) : BtAddrLE :=
  s.idAddr.getD i BT_ADDR_LE_ANY

/-! ## HCI transport model

The transport collaborator is external to the analysed source.  A
synchronous command submission (`bt_hci_cmd_send_sync`) consumes the next
result from a list `tr` of pending results (empty list: success).  Each
function additionally returns the trace of commands it submitted. -/

/-- One submitted HCI command, with the payload the core put into it. -/
inductive Cmd where
  | advData (op : Nat) (plen : Nat) (pdata : List Nat)
  | advEnable (payload : Bool)
  | scanParams (scanType : Nat) (interval : Nat) (window : Nat)
  | scanEnable (enable : Nat) (filterDup : Nat)
  deriving DecidableEq, Repr

/-- Pop the next synchronous-command result from the oracle. -/
def nextRes : List Int → Int × List Int
  | [] => (0, [])
  | r :: rest => (r, rest)

/-! ## Advertising data encoder (`set_ad`) -/

/-- `struct bt_data`: one advertising record.  `data_len` is the length
of `data`. -/
structure BtData where
  type : Nat
  data : List Nat
  deriving DecidableEq, Repr

/-- The body of the inner loop of `set_ad` for one record, acting on the
pair (`set_data->len`, bytes written so far).  `len` is a C `int`, so the
truncated length `31 - (set_data->len + 2)` is computed in `Int`: it can
be negative, and the code only rejects it when it is exactly zero
(`!len`).  A byte store truncates to 8 bits; `memcpy` with a negative
length is modelled as copying nothing (on the real machine it is an
out-of-bounds copy). -/
def encAppend (st : Nat × List Nat) (rec : BtData) : Except Unit (Nat × List Nat) :=
  let total := st.1
  let len : Int := rec.data.length
  if 31 < (total : Int) + len + 2 then
    let len2 : Int := 31 - ((total : Int) + 2)
    if rec.type ≠ BT_DATA_NAME_COMPLETE ∨ len2 = 0 then
      Except.error ()
    else
      Except.ok (((total : Int) + 2 + len2).toNat,
        st.2 ++ ((len2 + 1).emod 256).toNat :: BT_DATA_NAME_SHORTENED
          :: rec.data.take len2.toNat)
  else
    Except.ok (total + 2 + rec.data.length,
      st.2 ++ (rec.data.length + 1) :: rec.type :: rec.data)

/-- The inner loop of `set_ad` over the records of one `bt_ad` group; an
error aborts the remaining iterations (early `return`). -/
def encFold (st : Except Unit (Nat × List Nat)) (recs : List BtData) :
    Except Unit (Nat × List Nat) :=
  recs.foldl (fun st2 rec => st2.bind (fun x => encAppend x rec)) st

/-- The double loop of `set_ad` over the `ad` array of record groups,
starting from the zeroed `set_data` structure. -/
def encodeAd (ads : List (List BtData)) : Except Unit (Nat × List Nat) :=
  ads.foldl (fun st grp => encFold st grp) (Except.ok (0, []))

/-- The expected wire form of a record list: the concatenation of the
triples `[payload length + 1, type, payload bytes]`. -/
def encBytes : List BtData → List Nat
  | [] => []
  | rec :: rest => (rec.data.length + 1) :: rec.type :: (rec.data ++ encBytes rest)

/-- The cumulative encoded length of a record list: each record
contributes its payload length plus the two header bytes. -/
def sumEnc : List BtData → Nat
  | [] => 0
  | rec :: rest => rec.data.length + 2 + sumEnc rest

/-- `set_ad`: build the payload; on overflow release the buffer and
return `-EINVAL` without any transport call; otherwise submit the command
synchronously and pass its result through unchanged. -/
def setAd (op : Nat) (ads : List (List BtData)) (tr : List Int) :
    Int × List Cmd × List Int :=
  match encodeAd ads with
  | Except.error _ => (-EINVAL, [], tr)
  | Except.ok (plen, bytes) =>
      ((nextRes tr).1, [Cmd.advData op plen bytes], (nextRes tr).2)

/-! ## Advertise enable (`set_advertise_enable`) -/

/-- `set_advertise_enable`: note that the C code copies the *old*
`g_btdev.adv_enable` value into the command payload and updates
`adv_enable` and the `ADVERTISING` flag only after a successful
synchronous send. -/
def setAdvertiseEnable (s : BtDev) (tr : List Int) (enable : Bool) :
    Int × BtDev × List Cmd × List Int :=
  let r := (nextRes tr).1
  let tr' := (nextRes tr).2
  let cmds := [Cmd.advEnable s.advEnable]
  if r ≠ 0 then (r, s, cmds, tr')
  else
    let s1 := { s with advEnable := enable }
    let flags' := if enable then btAtomicSetbit s1.flags BtFlag.advertising
                  else btAtomicClrbit s1.flags BtFlag.advertising
    (0, { s1 with flags := flags' }, cmds, tr')

/-! ## Device name (`bt_set_name` / `bt_get_name`) -/

/-- `bt_get_name`. -/
def btGetName (s : BtDev) : List Nat := s.name

/-- `bt_set_name`: reject a name that does not fit the buffer; a name
equal to the stored one is a no-op; otherwise store it and, if the name
is being advertised, refresh the scan-response data and bounce
advertising — discarding the results of all three transport steps. -/
def btSetName (s : BtDev) (tr : List Int) (nm : List Nat) :
    Int × BtDev × List Cmd × List Int :=
  if nameBufSize ≤ nm.length then (-ENOMEM, s, [], tr)
  else if s.name = nm then (0, s, [], tr)
  else
    let s1 := { s with name := nm }
    if btAtomicTestbit s1.flags BtFlag.advertisingName then
      let r1 := setAd BT_HCI_OP_LE_SET_SCAN_RSP_DATA [[⟨BT_DATA_NAME_COMPLETE, nm⟩]] tr
      let c1 := r1.2.1
      let tr1 := r1.2.2
      if btAtomicTestbit s1.flags BtFlag.advertising then
        let r2 := setAdvertiseEnable s1 tr1 false
        let r3 := setAdvertiseEnable r2.2.1 r2.2.2.2 true
        (0, r3.2.1, c1 ++ r2.2.2.1 ++ r3.2.2.1, r3.2.2.2)
      else (0, s1, c1, tr1)
    else (0, s1, [], tr)

/-! ## Enable pipeline (`bt_enable` / `bt_init`) -/

/-- `bt_init`: `hci_initialize` then `bt_conn_init` (= `bt_l2cap_init`),
both external collaborators whose results are parameters; on success
`bt_finalize_init` sets `READY`.  The value returned on success is the
result of `bt_conn_init` (which is non-negative here). -/
def btInit (s : BtDev) (hciRes l2capRes : Int) : Int × BtDev :=
  if hciRes < 0 then (hciRes, s)
  else if l2capRes < 0 then (l2capRes, s)
  else (l2capRes, { s with flags := btAtomicSetbit s.flags BtFlag.ready })

/-- `bt_enable`: require a registered driver; test-and-set the `ENABLE`
flag, rejecting a second call with `-EALREADY`; set the configured
default name; open the driver (external, result `openRes`); then either
run `bt_init` synchronously (no callback) or queue the deferred work
item. -/
def btEnable (s : BtDev) (hasCb : Bool) (tr : List Int)
    (openRes hciRes l2capRes : Int) : Int × BtDev :=
  if ¬ s.driver then (-ENODEV, s)
  else if (btAtomicTestsetbit s.flags BtFlag.enable).1 then (-EALREADY, s)
  else
    let s1 := { s with flags := (btAtomicTestsetbit s.flags BtFlag.enable).2 }
    let s2 := (btSetName s1 tr CONFIG_BT_DEVICE_NAME).2.1
    if openRes ≠ 0 then (openRes, s2)
    else if ¬ hasCb then btInit s2 hciRes l2capRes
    else (0, if ¬ s2.workPending then { s2 with workPending := true } else s2)

/-! ## Identity address manager -/

/-- `id_find`: linear scan of `id_addr[0 .. id_count)` for an address. -/
def idFind (s : BtDev) (a : BtAddrLE) : Option Nat :=
  (List.range s.idCount).find? (fun i => decide (slot s i = a))

/-- The generation loop of `id_create`: draw random static addresses
until one is not already in the table.  The unbounded C loop is modelled
on a finite list of raw 6-byte draws; `none` means the loop has not
terminated within the supplied draws. -/
def genFresh (s : BtDev) : List (List Nat) → Option BtAddrLE
  | [] => none
  | d :: rest =>
      if (idFind s (staticFromDraw d)).isSome then genFresh s rest
      else some (staticFromDraw d)

/-- `id_create`: write the supplied concrete address into slot `id`, or
generate a fresh static random address for it. -/
def idCreate (s : BtDev) (id : Nat) (addrOpt : Option BtAddrLE)
    (draws : List (List Nat)) : Option BtDev :=
  match addrOpt with
  | some a =>
      if a = BT_ADDR_LE_ANY then
        (genFresh s draws).map (fun na => { s with idAddr := s.idAddr.set id na })
      else
        some { s with idAddr := s.idAddr.set id a }
  | none =>
      (genFresh s draws).map (fun na => { s with idAddr := s.idAddr.set id na })

/-- The count-increment step of `bt_id_create`: `new_id = id_count++`,
and mark `USER_ID_ADDR` when this is the default identity and the stack
is not yet `READY`. -/
def idCreateBump (s : BtDev) : BtDev :=
  if s.idCount = BT_ID_DEFAULT ∧ ¬ btAtomicTestbit s.flags BtFlag.ready then
    { s with idCount := s.idCount + 1,
             flags := btAtomicSetbit s.flags BtFlag.userIdAddr }
  else { s with idCount := s.idCount + 1 }

/-- The tail of `bt_id_create` after the address checks: capacity check,
count increment, and `id_create` on the *incremented* state (the C code
increments `id_count` before `id_create` runs, so the generation loop
scans the new slot as well). -/
def btIdCreateCore (s : BtDev) (addrOpt : Option BtAddrLE)
    (draws : List (List Nat)) : Option (Int × BtDev) :=
  if s.idCount = s.idAddr.length then some (-ENOMEM, s)
  else
    let newId := s.idCount
    let s2 := idCreateBump s
    (idCreate s2 newId addrOpt draws).map (fun s3 => ((newId : Int), s3))

/-- `bt_id_create`: a supplied concrete non-wildcard address must be
static random and not already present; then allocate the next slot.
`none` models the non-terminating generation loop. -/
def btIdCreate (s : BtDev) (addrOpt : Option BtAddrLE)
    (draws : List (List Nat)) : Option (Int × BtDev) :=
  match addrOpt with
  | some a =>
      if a ≠ BT_ADDR_LE_ANY then
        if a.type ≠ BT_ADDR_LE_RANDOM ∨ ¬ BT_ADDR_IS_STATIC a then
          some (-EINVAL, s)
        else if (idFind s a).isSome then some (-EALREADY, s)
        else btIdCreateCore s addrOpt draws
      else btIdCreateCore s addrOpt draws
  | none => btIdCreateCore s addrOpt draws

/-- `bt_id_reset`: same address checks as `bt_id_create`; reject the
default identity and out-of-range ids; reject the identity bound to
active advertising; unpair (the `bt_unpair` stub in this source returns
0); then re-run `id_create` in place on the *unchanged* count. -/
def btIdResetCore (s : BtDev) (id : Nat) (addrOpt : Option BtAddrLE)
    (draws : List (List Nat)) : Option (Int × BtDev) :=
  if id = BT_ID_DEFAULT ∨ s.idCount ≤ id then some (-EINVAL, s)
  else if id = s.advId ∧ btAtomicTestbit s.flags BtFlag.advertising then
    some (-EBUSY, s)
  else (idCreate s id addrOpt draws).map (fun s2 => ((id : Int), s2))

def btIdReset (s : BtDev) (id : Nat) (addrOpt : Option BtAddrLE)
    (draws : List (List Nat)) : Option (Int × BtDev) :=
  match addrOpt with
  | some a =>
      if a ≠ BT_ADDR_LE_ANY then
        if a.type ≠ BT_ADDR_LE_RANDOM ∨ ¬ BT_ADDR_IS_STATIC a then
          some (-EINVAL, s)
        else if (idFind s a).isSome then some (-EALREADY, s)
        else btIdResetCore s id addrOpt draws
      else btIdResetCore s id addrOpt draws
  | none => btIdResetCore s id addrOpt draws

/-- `bt_id_delete`: reject the default identity, out-of-range ids, an
already-wildcard slot, and the identity bound to active advertising;
unpair (stub, returns 0); clear the slot to the wildcard address and
shrink the count by one exactly when `id == id_count - 1`. -/
def btIdDelete (s : BtDev) (id : Nat) : Int × BtDev :=
  if id = BT_ID_DEFAULT ∨ s.idCount ≤ id then (-EINVAL, s)
  else if slot s id = BT_ADDR_LE_ANY then (-EALREADY, s)
  else if id = s.advId ∧ btAtomicTestbit s.flags BtFlag.advertising then
    (-EBUSY, s)
  else if id = s.idCount - 1 then
    (0, { s with idAddr := s.idAddr.set id BT_ADDR_LE_ANY,
                 idCount := s.idCount - 1 })
  else (0, { s with idAddr := s.idAddr.set id BT_ADDR_LE_ANY })

/-- `bt_set_id_addr`: forbidden once `READY`; otherwise delegate to
`bt_id_create` with a copy of the caller's address. -/
def btSetIdAddr (s : BtDev) (a : BtAddrLE) (draws : List (List Nat)) :
    Option (Int × BtDev) :=
  if btAtomicTestbit s.flags BtFlag.ready then some (-EBUSY, s)
  else btIdCreate s (some a) draws

/-! ## Identity operation sequences (for the table invariant) -/

/-- One identity-manager call, with the oracle data it needs. -/
inductive IdOp where
  | create : Option BtAddrLE → List (List Nat) → IdOp
  | reset : Nat → Option BtAddrLE → List (List Nat) → IdOp
  | delete : Nat → IdOp
  | setAddr : BtAddrLE → List (List Nat) → IdOp
  deriving Repr

/-- Execute one identity operation, keeping only the post-state (`none`
when the generation loop of the call does not terminate). -/
def stepIdOp (s : BtDev) : IdOp → Option BtDev
  | .create ao d => (btIdCreate s ao d).map Prod.snd
  | .reset id ao d => (btIdReset s id ao d).map Prod.snd
  | .delete id => some (btIdDelete s id).2
  | .setAddr a d => (btSetIdAddr s a d).map Prod.snd

/-- Execute a sequence of identity operations. -/
def runIdOps (s : BtDev) : List IdOp → Option BtDev
  | [] => some s
  | op :: rest =>
      match stepIdOp s op with
      | some s' => runIdOps s' rest
      | none => none

/-- The invariant claimed by the spec: no two entries of
`id_addr[0 .. id_count)` compare equal. -/
def distinctIdentities (s : BtDev) : Prop :=
  ∀ i j, i < s.idCount → j < s.idCount → i ≠ j → slot s i ≠ slot s j

/-- The invariant the code actually maintains: two equal in-range entries
can only be the wildcard address (interior deletes leave wildcard
holes). -/
def wadTable (tbl : List BtAddrLE) (n : Nat) : Prop :=
  ∀ i j, i < n → j < n → i ≠ j →
    tbl.getD i BT_ADDR_LE_ANY = tbl.getD j BT_ADDR_LE_ANY →
    tbl.getD i BT_ADDR_LE_ANY = BT_ADDR_LE_ANY

/-- `wadTable` for a device state. -/
def wildcardAwareDistinct (s : BtDev) : Prop :=
  wadTable s.idAddr s.idCount

/-! ## LE scan controller -/

/-- `struct bt_le_scan_param`. -/
structure BtLeScanParam where
  type : Nat
  filterDup : Nat
  interval : Nat
  window : Nat
  deriving DecidableEq, Repr

/-- `valid_le_scan_param`. -/
def validLeScanParam (p : BtLeScanParam) : Bool :=
  if p.type ≠ BT_LE_SCAN_PASSIVE ∧ p.type ≠ BT_LE_SCAN_ACTIVE then false
  else if p.filterDup ≠ BT_LE_SCAN_FILTER_DUP_DISABLE ∧
      p.filterDup ≠ BT_LE_SCAN_FILTER_DUP_ENABLE then false
  else if p.interval < 0x0004 ∨ 0x4000 < p.interval then false
  else if p.window < 0x0004 ∨ 0x4000 < p.window then false
  else if p.interval < p.window then false
  else true

/-- `set_le_scan_enable`: submit the scan-enable command (propagating the
duplicate-filter flag when enabling) and update `SCANNING` only on
success. -/
def setLeScanEnable (s : BtDev) (tr : List Int) (enable : Nat) :
    Int × BtDev × List Cmd × List Int :=
  let fd := if enable = BT_LE_SCAN_ENABLE then
              (if btAtomicTestbit s.flags BtFlag.scanFilterDup then 1 else 0)
            else BT_LE_SCAN_FILTER_DUP_DISABLE
  let r := (nextRes tr).1
  let tr' := (nextRes tr).2
  let cmds := [Cmd.scanEnable enable fd]
  if r ≠ 0 then (r, s, cmds, tr')
  else
    let flags' := if enable ≠ 0 then btAtomicSetbit s.flags BtFlag.scanning
                  else btAtomicClrbit s.flags BtFlag.scanning
    (0, { s with flags := flags' }, cmds, tr')

/-- `start_le_scan`: fire-and-forget the scan-parameters command, then
synchronously enable scanning; on success update `ACTIVE_SCAN` to mirror
the scan type. -/
def startLeScan (s : BtDev) (tr : List Int)
    (scanType interval window : Nat) : Int × BtDev × List Cmd × List Int :=
  let paramCmd := Cmd.scanParams scanType interval window
  let r1 := setLeScanEnable s tr BT_LE_SCAN_ENABLE
  if r1.1 ≠ 0 then (r1.1, r1.2.1, paramCmd :: r1.2.2.1, r1.2.2.2)
  else
    let s1 := r1.2.1
    let flags' := if scanType = BT_LE_SCAN_ACTIVE then
                    btAtomicSetbit s1.flags BtFlag.activeScan
                  else btAtomicClrbit s1.flags BtFlag.activeScan
    (0, { s1 with flags := flags' }, paramCmd :: r1.2.2.1, r1.2.2.2)

/-- `bt_le_scan_start`: require `READY`; validate the parameters;
test-and-set the `EXPLICIT_SCAN` guard; disable a running scan first
(rolling the guard back on failure); record the duplicate-filter
preference; start the scan (rolling the guard back on failure); on
success record the discovery callback. -/
def btLeScanStart (s : BtDev) (tr : List Int) (p : BtLeScanParam) :
    Int × BtDev × List Cmd × List Int :=
  if ¬ btAtomicTestbit s.flags BtFlag.ready then (-EAGAIN, s, [], tr)
  else if ¬ validLeScanParam p then (-EINVAL, s, [], tr)
  else if (btAtomicTestsetbit s.flags BtFlag.explicitScan).1 then
    (-EALREADY, { s with flags := (btAtomicTestsetbit s.flags BtFlag.explicitScan).2 }, [], tr)
  else
    let s1 := { s with flags := (btAtomicTestsetbit s.flags BtFlag.explicitScan).2 }
    let st1 := if btAtomicTestbit s1.flags BtFlag.scanning then
                 setLeScanEnable s1 tr BT_LE_SCAN_DISABLE
               else (0, s1, [], tr)
    if st1.1 ≠ 0 then
      (st1.1, { st1.2.1 with flags := btAtomicClrbit st1.2.1.flags BtFlag.explicitScan },
        st1.2.2.1, st1.2.2.2)
    else
      let s2 := st1.2.1
      let s3 := { s2 with flags :=
        if p.filterDup ≠ 0 then btAtomicSetbit s2.flags BtFlag.scanFilterDup
        else btAtomicClrbit s2.flags BtFlag.scanFilterDup }
      let st2 := startLeScan s3 st1.2.2.2 p.type p.interval p.window
      if st2.1 ≠ 0 then
        (st2.1, { st2.2.1 with flags := btAtomicClrbit st2.2.1.flags BtFlag.explicitScan },
          st1.2.2.1 ++ st2.2.2.1, st2.2.2.2)
      else
        (0, { st2.2.1 with scanCb := true }, st1.2.2.1 ++ st2.2.2.1, st2.2.2.2)

/-! ## Concrete inputs used by counterexamples and witnesses -/

/-- A static random address (`val[5] = 0xc0`, type random). -/
def addrA : BtAddrLE := ⟨BT_ADDR_LE_RANDOM, [1, 0, 0, 0, 0, 0xc0]⟩

def addrB : BtAddrLE := ⟨BT_ADDR_LE_RANDOM, [2, 0, 0, 0, 0, 0xc0]⟩

def addrC : BtAddrLE := ⟨BT_ADDR_LE_RANDOM, [3, 0, 0, 0, 0, 0xc0]⟩

def addrD : BtAddrLE := ⟨BT_ADDR_LE_RANDOM, [4, 0, 0, 0, 0, 0xc0]⟩

/-- Fill the identity table (capacity 4) with four distinct static random
addresses, then delete the two interior identities 1 and 2: both slots
become the wildcard address while `id_count` stays 4. -/
def exOpsC3 : List IdOp :=
  [IdOp.create (some addrA) [], IdOp.create (some addrB) [],
   IdOp.create (some addrC) [], IdOp.create (some addrD) [],
   IdOp.delete 1, IdOp.delete 2]

/-- The state reached by `exOpsC3` from the empty 4-slot device. -/
def c3State : BtDev := (runIdOps (initState 4) exOpsC3).getD (initState 4)

/-- Fill the table (capacity 4), delete interior identity 2 (leaving a
wildcard hole), then delete the tail identity 3 (shrinking the count to
3): slot 2 is a wildcard hole *inside* the range, so identity 1 is now
the occupied slot of highest index. -/
def exOpsC7 : List IdOp :=
  [IdOp.create (some addrA) [], IdOp.create (some addrB) [],
   IdOp.create (some addrC) [], IdOp.create (some addrD) [],
   IdOp.delete 2, IdOp.delete 3]

/-- The state reached by `exOpsC7`: table `[A, B, any, any]`, count 3. -/
def c7State : BtDev := (runIdOps (initState 4) exOpsC7).getD (initState 4)

/-- A record set whose first record brings the total to 30 bytes and
whose second record is a complete local name: the truncated length
computed for the second record is `31 - (30 + 2) = -1`. -/
def c2Records : List (List BtData) :=
  [[⟨0x16, List.replicate 28 0⟩, ⟨BT_DATA_NAME_COMPLETE, [65]⟩]]

/-- A ready, driver-bound, otherwise pristine device with one identity
slot, used by witnesses. -/
def readyDev : BtDev :=
  { initState 1 with driver := true, flags := { noFlags with ready := true } }

/-- A ready device that is advertising its name, used by the C10
witness. -/
def advNameDev : BtDev :=
  { readyDev with flags :=
      { readyDev.flags with advertisingName := true, advertising := true } }

/-- A valid scan parameter set (active scan, duplicate filtering,
interval = window = 0x10). -/
def scanP : BtLeScanParam := ⟨BT_LE_SCAN_ACTIVE, 1, 0x10, 0x10⟩

/-- An invalid scan parameter set: the window exceeds 0x4000 (and the
interval). -/
def badScanP : BtLeScanParam := ⟨BT_LE_SCAN_ACTIVE, 1, 0x4000, 0x5000⟩

/-- A ready device whose `EXPLICIT_SCAN` guard is already taken. -/
def scanBusyDev : BtDev :=
  { readyDev with flags := { readyDev.flags with explicitScan := true } }

/-- A ready device with a scan already running (`SCANNING` set). -/
def scanningDev : BtDev :=
  { readyDev with flags := { readyDev.flags with scanning := true } }

/-- A driver-bound device that has not been enabled yet. -/
def freshDev : BtDev := { initState 1 with driver := true }

/-- A driver-bound device whose `ENABLE` flag is already set. -/
def enabledDev : BtDev :=
  { initState 1 with driver := true, flags := { noFlags with enable := true } }

/-- A device with two identities in a three-slot table. -/
def idDev : BtDev :=
  { initState 3 with idAddr := [addrA, addrB, BT_ADDR_LE_ANY], idCount := 2 }

/-- A device whose identity table is full. -/
def fullIdDev : BtDev :=
  { initState 2 with idAddr := [addrA, addrB], idCount := 2 }

/-! # Theorems -/

/-! ## Generic list helpers -/

theorem getD_set (l : List BtAddrLE) (k j : Nat) (a d : BtAddrLE) :
    (l.set k a).getD j d = if j = k ∧ k < l.length then a else l.getD j d := by
  induction l generalizing k j with
  | nil => simp [List.set]
  | cons x xs ih =>
      cases k with
      | zero =>
          cases j with
          | zero => simp
          | succ j' => simp [List.getD_cons_succ, Nat.succ_ne_zero]
      | succ k' =>
          cases j with
          | zero =>
              simp [List.getD_cons_zero, (Nat.succ_ne_zero k').symm]
          | succ j' =>
              simp only [List.set, List.getD_cons_succ, ih k' j',
                List.length_cons]
              have h2 : (j' + 1 = k' + 1 ∧ k' + 1 < xs.length + 1) ↔
                  (j' = k' ∧ k' < xs.length) := by omega
              simp only [h2]

/-! ## Encoder lemmas -/

theorem encAppend_fit (st : Nat × List Nat) (rec : BtData)
    (h : st.1 + rec.data.length + 2 ≤ 31) :
    encAppend st rec = Except.ok (st.1 + 2 + rec.data.length,
      st.2 ++ (rec.data.length + 1) :: rec.type :: rec.data) := by
  have hfit : ¬ (31 < (st.1 : Int) + (rec.data.length : Int) + 2) := by
    omega
  simp [encAppend, hfit]

theorem encFold_cons (total : Nat) (acc : List Nat) (rec : BtData)
    (rest : List BtData) :
    encFold (Except.ok (total, acc)) (rec :: rest)
      = encFold (encAppend (total, acc) rec) rest := rfl

theorem encFold_ok (recs : List BtData) : ∀ (total : Nat) (acc : List Nat),
    total + sumEnc recs ≤ 31 →
    encFold (Except.ok (total, acc)) recs
      = Except.ok (total + sumEnc recs, acc ++ encBytes recs) := by
  induction recs with
  | nil =>
      intro total acc h
      simp [encFold, sumEnc, encBytes]
  | cons r rest ih =>
      intro total acc h
      have hsum : total + (r.data.length + 2 + sumEnc rest) ≤ 31 := by
        simpa [sumEnc] using h
      rw [encFold_cons, encAppend_fit (total, acc) r (by omega)]
      rw [ih (total + 2 + r.data.length)
        (acc ++ (r.data.length + 1) :: r.type :: r.data) (by omega)]
      simp only [sumEnc, encBytes, Except.ok.injEq, Prod.mk.injEq]
      constructor
      · omega
      · simp

theorem foldl_encFold_join (ads : List (List BtData)) :
    ∀ st, ads.foldl (fun st2 grp => encFold st2 grp) st = encFold st (List.flatten ads) := by
  induction ads with
  | nil => intro st; rfl
  | cons g gs ih =>
      intro st
      simp only [List.foldl_cons, ih, List.flatten]
      simp [encFold, List.foldl_append]

theorem encodeAd_eq_join (ads : List (List BtData)) :
    encodeAd ads = encFold (Except.ok (0, [])) (List.flatten ads) :=
  foldl_encFold_join ads (Except.ok (0, []))

/-! ## Claim C1 -/

/-- Claim C1: for every record set whose cumulative encoded length is at
most 31 bytes, `set_ad` builds exactly the concatenation, in input order,
of the triples `[payload length + 1, type, payload]`, sets the payload
length field to the cumulative length, submits that single command, and
passes the transport result through unchanged (`r = 0` is the successful
case). -/
theorem c1_set_ad_encodes (op : Nat) (ads : List (List BtData)) (r : Int)
    (tr : List Int) (h : sumEnc (List.flatten ads) ≤ 31) :
    setAd op ads (r :: tr)
      = (r, [Cmd.advData op (sumEnc (List.flatten ads)) (encBytes (List.flatten ads))], tr) := by
  rw [setAd, encodeAd_eq_join, encFold_ok _ 0 [] (by simpa using h)]
  simp [nextRes]

/-- Witness for C1: a one-group, one-record set of cumulative length 5
encodes to `[4, type, bytes]` and is submitted with a success result. -/
theorem c1_set_ad_encodes_witness :
    sumEnc (List.flatten [[⟨2, [10, 20, 30]⟩]]) ≤ 31 ∧
    setAd BT_HCI_OP_LE_SET_ADV_DATA [[⟨2, [10, 20, 30]⟩]] [0]
      = (0, [Cmd.advData BT_HCI_OP_LE_SET_ADV_DATA
          (sumEnc (List.flatten [[⟨2, [10, 20, 30]⟩]]))
          (encBytes (List.flatten [[⟨2, [10, 20, 30]⟩]]))], []) :=
  ⟨by decide, c1_set_ad_encodes BT_HCI_OP_LE_SET_ADV_DATA [[⟨2, [10, 20, 30]⟩]] 0 []
    (by decide)⟩

/-! ## Claim C2 -/

/-- Claim C2 (code bug): on `c2Records` the running total reaches 30 and
the appended record is a complete local name, so the truncated length
computed by `set_ad` is `31 - (30 + 2) = -1 ≤ 0`; the claim (and spec)
say the encoder must fail, but the code only rejects a length of exactly
zero (`!len`): it takes the shortened branch with the negative length,
produces a nonsense zero length byte, and submits the command (on the
real machine the `memcpy` with negative length is an out-of-bounds
copy).  The evaluation below shows the encoder returning success — not
`-EINVAL` — at this input. -/
theorem c2_negative_truncation_not_rejected :
    encodeAd c2Records
      = Except.ok (31, 29 :: 0x16 :: (List.replicate 28 0 ++ [0, BT_DATA_NAME_SHORTENED])) ∧
    setAd BT_HCI_OP_LE_SET_ADV_DATA c2Records []
      = (0, [Cmd.advData BT_HCI_OP_LE_SET_ADV_DATA 31
          (29 :: 0x16 :: (List.replicate 28 0 ++ [0, BT_DATA_NAME_SHORTENED]))], []) := by
  constructor
  · rfl
  · rfl

/-! ## Name helper lemmas -/

theorem setAdvertiseEnable_name (s : BtDev) (tr : List Int) (e : Bool) :
    (setAdvertiseEnable s tr e).2.1.name = s.name := by
  by_cases hr : (nextRes tr).1 ≠ 0 <;> cases e <;> simp [setAdvertiseEnable, hr]

theorem btSetName_result (s : BtDev) (tr : List Int) (nm : List Nat)
    (h : nm.length < nameBufSize) (hne : s.name ≠ nm) :
    (btSetName s tr nm).1 = 0 ∧ (btSetName s tr nm).2.1.name = nm := by
  unfold btSetName
  rw [if_neg (by omega), if_neg hne]
  by_cases han : btAtomicTestbit { s with name := nm }.flags BtFlag.advertisingName
  · rw [if_pos han]
    by_cases hadv : btAtomicTestbit { s with name := nm }.flags BtFlag.advertising
    · rw [if_pos hadv]
      simp [setAdvertiseEnable_name]
    · rw [if_neg hadv]
      simp
  · rw [if_neg han]
    simp

/-! ## Claim C9 -/

/-- Claim C9: for every name that fits the name buffer, `bt_set_name`
followed by `bt_get_name` returns that name; and setting a name equal to
the currently stored one returns success immediately, changes nothing and
submits no transport command. -/
theorem c9_name_round_trip (s : BtDev) (tr : List Int) (nm : List Nat)
    (h : nm.length < nameBufSize) :
    btGetName (btSetName s tr nm).2.1 = nm ∧
    (s.name = nm → btSetName s tr nm = (0, s, [], tr)) := by
  constructor
  · by_cases he : s.name = nm
    · unfold btSetName btGetName
      rw [if_neg (by omega), if_pos he]
      exact he
    · exact (btSetName_result s tr nm h he).2
  · intro he
    unfold btSetName
    rw [if_neg (by omega), if_pos he]

/-- Witness for C9: storing the name `"X"` (byte 88) on a fresh device
and reading it back. -/
theorem c9_name_round_trip_witness :
    ([88] : List Nat).length < nameBufSize ∧
    btGetName (btSetName readyDev [] [88]).2.1 = [88] :=
  ⟨by decide, (c9_name_round_trip readyDev [] [88] (by decide)).1⟩

/-! ## Claim C10 -/

/-- Claim C10: for a fitting name that differs from the stored one,
`bt_set_name` stores it and returns 0 for *every* transport oracle `tr`,
even with `ADVERTISING_NAME` set and all three re-advertisement transport
steps failing: their error codes are discarded. -/
theorem c10_set_name_discards_transport_errors (s : BtDev) (tr : List Int)
    (nm : List Nat) (h : nm.length < nameBufSize) (hne : s.name ≠ nm)
    (hadv : btAtomicTestbit s.flags BtFlag.advertisingName = true) :
    (btSetName s tr nm).1 = 0 ∧ (btSetName s tr nm).2.1.name = nm :=
  btSetName_result s tr nm h hne

/-- Witness for C10: a device advertising its name, with every transport
submission failing (oracle `[-5, -5, -5]`), still returns 0 and stores
the new name. -/
theorem c10_set_name_discards_transport_errors_witness :
    ([88] : List Nat).length < nameBufSize ∧ advNameDev.name ≠ [88] ∧
    btAtomicTestbit advNameDev.flags BtFlag.advertisingName = true ∧
    (btSetName advNameDev [-5, -5, -5] [88]).1 = 0 ∧
    (btSetName advNameDev [-5, -5, -5] [88]).2.1.name = [88] :=
  ⟨by decide, by decide, by decide,
    (c10_set_name_discards_transport_errors advNameDev [-5, -5, -5] [88]
      (by decide) (by decide) (by decide)).1,
    (c10_set_name_discards_transport_errors advNameDev [-5, -5, -5] [88]
      (by decide) (by decide) (by decide)).2⟩

/-! ## Enable pipeline lemmas and Claim C8 -/

theorem setAdvertiseEnable_flags (s : BtDev) (tr : List Int) (e : Bool) :
    (setAdvertiseEnable s tr e).2.1.flags.enable = s.flags.enable ∧
    (setAdvertiseEnable s tr e).2.1.flags.ready = s.flags.ready := by
  by_cases hr : (nextRes tr).1 ≠ 0 <;> cases e <;>
    simp [setAdvertiseEnable, btAtomicSetbit, btAtomicClrbit, hr]

theorem btSetName_flags (s : BtDev) (tr : List Int) (nm : List Nat) :
    (btSetName s tr nm).2.1.flags.enable = s.flags.enable ∧
    (btSetName s tr nm).2.1.flags.ready = s.flags.ready := by
  unfold btSetName
  by_cases h1 : nameBufSize ≤ nm.length
  · rw [if_pos h1]
    exact ⟨rfl, rfl⟩
  · rw [if_neg h1]
    by_cases h2 : s.name = nm
    · rw [if_pos h2]
      exact ⟨rfl, rfl⟩
    · rw [if_neg h2]
      by_cases h3 : btAtomicTestbit { s with name := nm }.flags BtFlag.advertisingName
      · rw [if_pos h3]
        by_cases h4 : btAtomicTestbit { s with name := nm }.flags BtFlag.advertising
        · rw [if_pos h4]
          constructor
          · show (setAdvertiseEnable _ _ true).2.1.flags.enable = _
            rw [(setAdvertiseEnable_flags _ _ _).1,
              (setAdvertiseEnable_flags _ _ _).1]
          · show (setAdvertiseEnable _ _ true).2.1.flags.ready = _
            rw [(setAdvertiseEnable_flags _ _ _).2,
              (setAdvertiseEnable_flags _ _ _).2]
        · rw [if_neg h4]
          exact ⟨rfl, rfl⟩
      · rw [if_neg h3]
        exact ⟨rfl, rfl⟩

/-- Claim C8: with a driver bound, `bt_enable` test-and-sets the `ENABLE`
flag: a call finding the flag already set returns `-EALREADY` at once
with the device state unchanged; a first (synchronous) call with
successful collaborators proceeds through initialization, ending with
`ENABLE` and `READY` set and result 0. -/
theorem c8_enable_once (s : BtDev) (cb : Bool) (tr : List Int)
    (openRes hciRes l2capRes : Int) (hdrv : s.driver = true) :
    (btAtomicTestbit s.flags BtFlag.enable = true →
      btEnable s cb tr openRes hciRes l2capRes = (-EALREADY, s)) ∧
    (btAtomicTestbit s.flags BtFlag.enable = false →
      (btEnable s false tr 0 0 0).1 = 0 ∧
      (btEnable s false tr 0 0 0).2.flags.enable = true ∧
      (btEnable s false tr 0 0 0).2.flags.ready = true) := by
  constructor
  · intro hset
    unfold btEnable
    rw [if_neg (by simp [hdrv]), if_pos (by simpa [btAtomicTestsetbit] using hset)]
  · intro hunset
    have e1 : btEnable s false tr 0 0 0
        = btInit ((btSetName { s with flags := btAtomicSetbit s.flags BtFlag.enable }
            tr CONFIG_BT_DEVICE_NAME).2.1) 0 0 := by
      unfold btEnable
      rw [if_neg (by simp [hdrv]), if_neg (by simp [btAtomicTestsetbit, hunset])]
      simp [btAtomicTestsetbit]
    have e2 := btSetName_flags { s with flags := btAtomicSetbit s.flags BtFlag.enable }
      tr CONFIG_BT_DEVICE_NAME
    have e3 : ∀ x : BtDev, btInit x 0 0
        = (0, { x with flags := btAtomicSetbit x.flags BtFlag.ready }) := fun x => rfl
    rw [e1, e3]
    refine ⟨rfl, ?_, ?_⟩
    · show (btAtomicSetbit _ BtFlag.ready).enable = true
      rw [show ∀ f : BtFlags, (btAtomicSetbit f BtFlag.ready).enable = f.enable
        from fun f => rfl]
      rw [e2.1]
      rfl
    · show (btAtomicSetbit _ BtFlag.ready).ready = true
      rw [show ∀ f : BtFlags, (btAtomicSetbit f BtFlag.ready).ready = true
        from fun f => rfl]

/-- Witness for C8: a second enable on an already-enabled device returns
`-EALREADY` unchanged; a first enable on a fresh driver-bound device
returns 0 and reaches `READY`. -/
theorem c8_enable_once_witness :
    enabledDev.driver = true ∧
    btEnable enabledDev false [] 0 0 0 = (-EALREADY, enabledDev) ∧
    (btEnable freshDev false [] 0 0 0).1 = 0 ∧
    (btEnable freshDev false [] 0 0 0).2.flags.ready = true :=
  ⟨by decide,
   (c8_enable_once enabledDev false [] 0 0 0 (by decide)).1 (by decide),
   ((c8_enable_once freshDev false [] 0 0 0 (by decide)).2 (by decide)).1,
   ((c8_enable_once freshDev false [] 0 0 0 (by decide)).2 (by decide)).2.2⟩

/-! ## Scan controller lemmas and Claims C4 / C5 -/

theorem setbit_explicitScan_self (f : BtFlags) (h : f.explicitScan = true) :
    btAtomicSetbit f BtFlag.explicitScan = f := by
  cases f
  simp_all [btAtomicSetbit]

/-- Claim C4: scan parameters are accepted exactly when the scan type is
passive or active, the duplicate filter is disabled or enabled, interval
and window lie in `[0x0004, 0x4000]` and the window does not exceed the
interval; with `READY` set, an invalid parameter set makes
`bt_le_scan_start` return `-EINVAL` with the state unchanged, no command
created or issued, and no flag changed. -/
theorem c4_scan_param_validation (s : BtDev) (tr : List Int) (p : BtLeScanParam) :
    (validLeScanParam p = true ↔
      ((p.type = BT_LE_SCAN_PASSIVE ∨ p.type = BT_LE_SCAN_ACTIVE) ∧
       (p.filterDup = BT_LE_SCAN_FILTER_DUP_DISABLE ∨
         p.filterDup = BT_LE_SCAN_FILTER_DUP_ENABLE) ∧
       0x0004 ≤ p.interval ∧ p.interval ≤ 0x4000 ∧
       0x0004 ≤ p.window ∧ p.window ≤ 0x4000 ∧ p.window ≤ p.interval)) ∧
    (btAtomicTestbit s.flags BtFlag.ready = true → validLeScanParam p = false →
      btLeScanStart s tr p = (-EINVAL, s, [], tr)) := by
  constructor
  · simp only [validLeScanParam, BT_LE_SCAN_PASSIVE, BT_LE_SCAN_ACTIVE,
      BT_LE_SCAN_FILTER_DUP_DISABLE, BT_LE_SCAN_FILTER_DUP_ENABLE]
    repeat' split
    all_goals simp_all
    all_goals omega
  · intro hr hv
    unfold btLeScanStart
    rw [if_neg (by simp [hr]), if_pos (by simp [hv])]

/-- Witness for C4: on a ready device the spec's example parameter set
with `window = 0x5000` is rejected as `-EINVAL` with no command and no
state change, while the valid set `interval = window = 0x10` passes
validation. -/
theorem c4_scan_param_validation_witness :
    btAtomicTestbit readyDev.flags BtFlag.ready = true ∧
    validLeScanParam badScanP = false ∧
    btLeScanStart readyDev [] badScanP = (-EINVAL, readyDev, [], []) ∧
    validLeScanParam scanP = true :=
  ⟨by decide, by decide,
   (c4_scan_param_validation readyDev [] badScanP).2 (by decide) (by decide),
   by decide⟩

/-- Claim C5: with `READY` set and valid parameters, `bt_le_scan_start`
test-and-sets `EXPLICIT_SCAN` and fails `-EALREADY` (state unchanged) if
it was set; if the preliminary scan-disable submission fails the guard is
cleared and the error returned; if the scan-enable submission fails the
guard is cleared and the error returned; and on success the guard stays
set. -/
theorem c5_explicit_scan_guard (s : BtDev) (tr : List Int) (p : BtLeScanParam)
    (hr : btAtomicTestbit s.flags BtFlag.ready = true)
    (hv : validLeScanParam p = true) :
    (btAtomicTestbit s.flags BtFlag.explicitScan = true →
      btLeScanStart s tr p = (-EALREADY, s, [], tr)) ∧
    (∀ (e : Int) (tr' : List Int),
      btAtomicTestbit s.flags BtFlag.explicitScan = false →
      btAtomicTestbit s.flags BtFlag.scanning = true → e ≠ 0 →
      (btLeScanStart s (e :: tr') p).1 = e ∧
      (btLeScanStart s (e :: tr') p).2.1.flags.explicitScan = false) ∧
    (∀ (e : Int) (tr' : List Int),
      btAtomicTestbit s.flags BtFlag.explicitScan = false →
      btAtomicTestbit s.flags BtFlag.scanning = false → e ≠ 0 →
      (btLeScanStart s (e :: tr') p).1 = e ∧
      (btLeScanStart s (e :: tr') p).2.1.flags.explicitScan = false) ∧
    (∀ tr' : List Int,
      btAtomicTestbit s.flags BtFlag.explicitScan = false →
      btAtomicTestbit s.flags BtFlag.scanning = false →
      (btLeScanStart s ((0 : Int) :: tr') p).1 = 0 ∧
      (btLeScanStart s ((0 : Int) :: tr') p).2.1.flags.explicitScan = true) := by
  refine ⟨?_, ?_, ?_, ?_⟩
  · intro hset
    unfold btLeScanStart
    rw [if_neg (by simp [hr]), if_neg (by simp [hv]),
      if_pos (by simpa [btAtomicTestsetbit, btAtomicTestbit] using hset)]
    have hself : btAtomicSetbit s.flags BtFlag.explicitScan = s.flags :=
      setbit_explicitScan_self _ (by simpa [btAtomicTestbit] using hset)
    simp [btAtomicTestsetbit, hself]
  · intro e tr' hexp hscan he
    simp only [btAtomicTestbit] at hexp hscan hr
    simp [btLeScanStart, setLeScanEnable, nextRes, btAtomicTestsetbit,
      btAtomicTestbit, btAtomicSetbit, btAtomicClrbit, BT_LE_SCAN_ENABLE,
      BT_LE_SCAN_DISABLE, BT_LE_SCAN_FILTER_DUP_DISABLE,
      hr, hv, hexp, hscan, he]
  · intro e tr' hexp hscan he
    simp only [btAtomicTestbit] at hexp hscan hr
    by_cases hf : p.filterDup ≠ 0 <;>
      simp [btLeScanStart, startLeScan, setLeScanEnable, nextRes,
        btAtomicTestsetbit, btAtomicTestbit, btAtomicSetbit, btAtomicClrbit,
        BT_LE_SCAN_ENABLE, BT_LE_SCAN_DISABLE, BT_LE_SCAN_FILTER_DUP_DISABLE,
        hr, hv, hexp, hscan, he, hf]
  · intro tr' hexp hscan
    simp only [btAtomicTestbit] at hexp hscan hr
    by_cases hf : p.filterDup ≠ 0 <;>
      by_cases ht : p.type = BT_LE_SCAN_ACTIVE <;>
        simp [btLeScanStart, startLeScan, setLeScanEnable, nextRes,
          btAtomicTestsetbit, btAtomicTestbit, btAtomicSetbit, btAtomicClrbit,
          BT_LE_SCAN_ENABLE, BT_LE_SCAN_DISABLE, BT_LE_SCAN_FILTER_DUP_DISABLE,
          hr, hv, hexp, hscan, hf, ht]

/-- Witness for C5: a busy guard yields `-EALREADY` unchanged; a failing
enable on a fresh ready device returns the error with the guard cleared;
a successful start leaves the guard set. -/
theorem c5_explicit_scan_guard_witness :
    btLeScanStart scanBusyDev [] scanP = (-EALREADY, scanBusyDev, [], []) ∧
    (btLeScanStart scanningDev [-5] scanP).1 = -5 ∧
    (btLeScanStart scanningDev [-5] scanP).2.1.flags.explicitScan = false ∧
    (btLeScanStart readyDev [0] scanP).1 = 0 ∧
    (btLeScanStart readyDev [0] scanP).2.1.flags.explicitScan = true :=
  ⟨(c5_explicit_scan_guard scanBusyDev [] scanP (by decide) (by decide)).1
      (by decide),
   ((c5_explicit_scan_guard scanningDev [-5] scanP (by decide) (by decide)).2.1
      (-5) [] (by decide) (by decide) (by decide)).1,
   ((c5_explicit_scan_guard scanningDev [-5] scanP (by decide) (by decide)).2.1
      (-5) [] (by decide) (by decide) (by decide)).2,
   ((c5_explicit_scan_guard readyDev [0] scanP (by decide) (by decide)).2.2.2
      [] (by decide) (by decide)).1,
   ((c5_explicit_scan_guard readyDev [0] scanP (by decide) (by decide)).2.2.2
      [] (by decide) (by decide)).2⟩

/-! ## Identity manager lemmas -/

theorem idFind_eq_none_iff (s : BtDev) (a : BtAddrLE) :
    idFind s a = none ↔ ∀ i, i < s.idCount → slot s i ≠ a := by
  simp [idFind, List.find?_eq_none, List.mem_range]

theorem genFresh_fresh (s : BtDev) (draws : List (List Nat)) (na : BtAddrLE)
    (h : genFresh s draws = some na) : idFind s na = none := by
  induction draws with
  | nil => simp [genFresh] at h
  | cons d rest ih =>
      unfold genFresh at h
      by_cases hf : (idFind s (staticFromDraw d)).isSome
      · rw [if_pos hf] at h
        exact ih h
      · rw [if_neg hf] at h
        obtain rfl := Option.some.inj h
        exact Option.not_isSome_iff_eq_none.mp hf

theorem idCreateBump_idAddr (s : BtDev) : (idCreateBump s).idAddr = s.idAddr := by
  unfold idCreateBump
  split <;> rfl

theorem idCreateBump_idCount (s : BtDev) :
    (idCreateBump s).idCount = s.idCount + 1 := by
  unfold idCreateBump
  split <;> rfl

theorem idCreate_some (s : BtDev) (k : Nat) (ao : Option BtAddrLE)
    (draws : List (List Nat)) (s' : BtDev) (h : idCreate s k ao draws = some s') :
    ∃ na, s' = { s with idAddr := s.idAddr.set k na } ∧
      ((ao = some na ∧ na ≠ BT_ADDR_LE_ANY) ∨ idFind s na = none) := by
  cases ao with
  | some a =>
      simp only [idCreate] at h
      by_cases ha : a = BT_ADDR_LE_ANY
      · rw [if_pos ha] at h
        obtain ⟨na, hna, hs'⟩ := Option.map_eq_some'.mp h
        exact ⟨na, hs'.symm, Or.inr (genFresh_fresh s draws na hna)⟩
      · rw [if_neg ha] at h
        exact ⟨a, (Option.some.inj h).symm, Or.inl ⟨rfl, ha⟩⟩
  | none =>
      simp only [idCreate] at h
      obtain ⟨na, hna, hs'⟩ := Option.map_eq_some'.mp h
      exact ⟨na, hs'.symm, Or.inr (genFresh_fresh s draws na hna)⟩

theorem wadTable_set (tbl : List BtAddrLE) (n k n' : Nat) (a : BtAddrLE)
    (hwad : wadTable tbl n)
    (hn' : ∀ i, i < n' → i < n ∨ i = k)
    (hfresh : ∀ i, i < n → i ≠ k → tbl.getD i BT_ADDR_LE_ANY ≠ a) :
    wadTable (tbl.set k a) n' := by
  intro i j hi hj hij heq
  have hset : ∀ x, (tbl.set k a).getD x BT_ADDR_LE_ANY
      = if x = k ∧ k < tbl.length then a else tbl.getD x BT_ADDR_LE_ANY :=
    fun x => getD_set tbl k x a BT_ADDR_LE_ANY
  rw [hset i, hset j] at heq
  rw [hset i]
  by_cases hik : i = k ∧ k < tbl.length
  · rw [if_pos hik] at heq ⊢
    have hjk : ¬ (j = k ∧ k < tbl.length) := fun hh => hij (hik.1.trans hh.1.symm)
    rw [if_neg hjk] at heq
    have hjn : j < n := by
      rcases hn' j hj with hlt | hek
      · exact hlt
      · exact absurd ⟨hek, hik.2⟩ hjk
    exact absurd heq.symm (hfresh j hjn (fun hh => hjk ⟨hh, hik.2⟩))
  · rw [if_neg hik] at heq ⊢
    by_cases hjk : j = k ∧ k < tbl.length
    · rw [if_pos hjk] at heq
      have hin : i < n := by
        rcases hn' i hi with hlt | hek
        · exact hlt
        · exact absurd ⟨hek, hjk.2⟩ hik
      exact absurd heq (hfresh i hin (fun hh => hik ⟨hh, hjk.2⟩))
    · rw [if_neg hjk] at heq
      by_cases hin : i < n
      · by_cases hjn : j < n
        · exact hwad i j hin hjn hij heq
        · have hjek : j = k := (hn' j hj).resolve_left hjn
          have hklen : ¬ k < tbl.length := fun hh => hjk ⟨hjek, hh⟩
          rw [heq, hjek]
          exact List.getD_eq_default _ _ (le_of_not_lt hklen)
      · have hiek : i = k := (hn' i hi).resolve_left hin
        have hklen : ¬ k < tbl.length := fun hh => hik ⟨hiek, hh⟩
        rw [hiek]
        exact List.getD_eq_default _ _ (le_of_not_lt hklen)

theorem wadTable_clear (tbl : List BtAddrLE) (n n' k : Nat)
    (hwad : wadTable tbl n) (hn' : n' ≤ n) :
    wadTable (tbl.set k BT_ADDR_LE_ANY) n' := by
  intro i j hi hj hij heq
  have hset : ∀ x, (tbl.set k BT_ADDR_LE_ANY).getD x BT_ADDR_LE_ANY
      = if x = k ∧ k < tbl.length then BT_ADDR_LE_ANY
        else tbl.getD x BT_ADDR_LE_ANY :=
    fun x => getD_set tbl k x BT_ADDR_LE_ANY BT_ADDR_LE_ANY
  rw [hset i, hset j] at heq
  rw [hset i]
  by_cases hik : i = k ∧ k < tbl.length
  · rw [if_pos hik]
  · rw [if_neg hik] at heq ⊢
    by_cases hjk : j = k ∧ k < tbl.length
    · rw [if_pos hjk] at heq
      exact heq
    · rw [if_neg hjk] at heq
      exact hwad i j (lt_of_lt_of_le hi hn') (lt_of_lt_of_le hj hn') hij heq

/-! ## Preservation of the wildcard-aware distinctness invariant -/

theorem snd_eq_of_some_pair {r1 r2 : Int} {s1 s2 : BtDev}
    (h : (some (r1, s1) : Option (Int × BtDev)) = some (r2, s2)) : s1 = s2 :=
  congrArg Prod.snd (Option.some.inj h)

theorem wad_btIdCreateCore (s : BtDev) (ao : Option BtAddrLE)
    (draws : List (List Nat)) (r : Int) (s' : BtDev)
    (hw : wildcardAwareDistinct s)
    (hfr : ∀ a, ao = some a → a ≠ BT_ADDR_LE_ANY → idFind s a = none)
    (h : btIdCreateCore s ao draws = some (r, s')) :
    wildcardAwareDistinct s' := by
  unfold btIdCreateCore at h
  by_cases hcap : s.idCount = s.idAddr.length
  · rw [if_pos hcap] at h
    exact snd_eq_of_some_pair h ▸ hw
  · rw [if_neg hcap] at h
    obtain ⟨s3, hs3, hfb⟩ := Option.map_eq_some'.mp h
    have hs' : s3 = s' := congrArg Prod.snd hfb
    obtain ⟨na, hna, hcase⟩ := idCreate_some (idCreateBump s) s.idCount ao draws s3 hs3
    subst hs'
    rw [hna]
    show wadTable ((idCreateBump s).idAddr.set s.idCount na) ((idCreateBump s).idCount)
    rw [idCreateBump_idAddr, idCreateBump_idCount]
    apply wadTable_set s.idAddr s.idCount s.idCount (s.idCount + 1) na hw
      (fun i hi => by omega)
    rcases hcase with ⟨hao, hne⟩ | hfind
    · intro i hi _
      exact (idFind_eq_none_iff s na).mp (hfr na hao hne) i hi
    · intro i hi _
      have := (idFind_eq_none_iff (idCreateBump s) na).mp hfind i
        (by rw [idCreateBump_idCount]; omega)
      simpa [slot, idCreateBump_idAddr] using this

theorem wad_btIdCreate (s : BtDev) (ao : Option BtAddrLE)
    (draws : List (List Nat)) (r : Int) (s' : BtDev)
    (hw : wildcardAwareDistinct s)
    (h : btIdCreate s ao draws = some (r, s')) : wildcardAwareDistinct s' := by
  cases ao with
  | some a =>
      simp only [btIdCreate] at h
      by_cases ha : a = BT_ADDR_LE_ANY
      · rw [if_neg (by simp [ha])] at h
        exact wad_btIdCreateCore s _ draws r s' hw
          (fun b hb hbne => absurd (Option.some.inj hb ▸ ha) hbne) h
      · rw [if_pos ha] at h
        by_cases htype : a.type ≠ BT_ADDR_LE_RANDOM ∨ ¬ BT_ADDR_IS_STATIC a
        · rw [if_pos htype] at h
          exact snd_eq_of_some_pair h ▸ hw
        · rw [if_neg htype] at h
          by_cases hfound : (idFind s a).isSome
          · rw [if_pos hfound] at h
            exact snd_eq_of_some_pair h ▸ hw
          · rw [if_neg hfound] at h
            have hnone : idFind s a = none := Option.not_isSome_iff_eq_none.mp hfound
            exact wad_btIdCreateCore s _ draws r s' hw
              (fun b hb _ => Option.some.inj hb ▸ hnone) h
  | none =>
      simp only [btIdCreate] at h
      exact wad_btIdCreateCore s none draws r s' hw (fun b hb => by cases hb) h

theorem wad_btIdResetCore (s : BtDev) (id : Nat) (ao : Option BtAddrLE)
    (draws : List (List Nat)) (r : Int) (s' : BtDev)
    (hw : wildcardAwareDistinct s)
    (hfr : ∀ a, ao = some a → a ≠ BT_ADDR_LE_ANY → idFind s a = none)
    (h : btIdResetCore s id ao draws = some (r, s')) :
    wildcardAwareDistinct s' := by
  unfold btIdResetCore at h
  by_cases h1 : id = BT_ID_DEFAULT ∨ s.idCount ≤ id
  · rw [if_pos h1] at h
    exact snd_eq_of_some_pair h ▸ hw
  · rw [if_neg h1] at h
    by_cases h2 : id = s.advId ∧ btAtomicTestbit s.flags BtFlag.advertising
    · rw [if_pos h2] at h
      exact snd_eq_of_some_pair h ▸ hw
    · rw [if_neg h2] at h
      obtain ⟨s3, hs3, hfb⟩ := Option.map_eq_some'.mp h
      have hs' : s3 = s' := congrArg Prod.snd hfb
      obtain ⟨na, hna, hcase⟩ := idCreate_some s id ao draws s3 hs3
      subst hs'
      rw [hna]
      show wadTable (s.idAddr.set id na) s.idCount
      apply wadTable_set s.idAddr s.idCount id s.idCount na hw
        (fun i hi => Or.inl hi)
      rcases hcase with ⟨hao, hne⟩ | hfind
      · intro i hi _
        exact (idFind_eq_none_iff s na).mp (hfr na hao hne) i hi
      · intro i hi _
        exact (idFind_eq_none_iff s na).mp hfind i hi

theorem wad_btIdReset (s : BtDev) (id : Nat) (ao : Option BtAddrLE)
    (draws : List (List Nat)) (r : Int) (s' : BtDev)
    (hw : wildcardAwareDistinct s)
    (h : btIdReset s id ao draws = some (r, s')) : wildcardAwareDistinct s' := by
  cases ao with
  | some a =>
      simp only [btIdReset] at h
      by_cases ha : a = BT_ADDR_LE_ANY
      · rw [if_neg (by simp [ha])] at h
        exact wad_btIdResetCore s id _ draws r s' hw
          (fun b hb hbne => absurd (Option.some.inj hb ▸ ha) hbne) h
      · rw [if_pos ha] at h
        by_cases htype : a.type ≠ BT_ADDR_LE_RANDOM ∨ ¬ BT_ADDR_IS_STATIC a
        · rw [if_pos htype] at h
          exact snd_eq_of_some_pair h ▸ hw
        · rw [if_neg htype] at h
          by_cases hfound : (idFind s a).isSome
          · rw [if_pos hfound] at h
            exact snd_eq_of_some_pair h ▸ hw
          · rw [if_neg hfound] at h
            have hnone : idFind s a = none := Option.not_isSome_iff_eq_none.mp hfound
            exact wad_btIdResetCore s id _ draws r s' hw
              (fun b hb _ => Option.some.inj hb ▸ hnone) h
  | none =>
      simp only [btIdReset] at h
      exact wad_btIdResetCore s id none draws r s' hw (fun b hb => by cases hb) h

theorem wad_btIdDelete (s : BtDev) (id : Nat) (hw : wildcardAwareDistinct s) :
    wildcardAwareDistinct (btIdDelete s id).2 := by
  unfold btIdDelete
  by_cases h1 : id = BT_ID_DEFAULT ∨ s.idCount ≤ id
  · rw [if_pos h1]
    exact hw
  · rw [if_neg h1]
    by_cases h2 : slot s id = BT_ADDR_LE_ANY
    · rw [if_pos h2]
      exact hw
    · rw [if_neg h2]
      by_cases h3 : id = s.advId ∧ btAtomicTestbit s.flags BtFlag.advertising
      · rw [if_pos h3]
        exact hw
      · rw [if_neg h3]
        by_cases h4 : id = s.idCount - 1
        · rw [if_pos h4]
          show wadTable (s.idAddr.set id BT_ADDR_LE_ANY) (s.idCount - 1)
          exact wadTable_clear s.idAddr s.idCount (s.idCount - 1) id hw (by omega)
        · rw [if_neg h4]
          show wadTable (s.idAddr.set id BT_ADDR_LE_ANY) s.idCount
          exact wadTable_clear s.idAddr s.idCount s.idCount id hw (le_refl _)

theorem wad_stepIdOp (s : BtDev) (op : IdOp) (s1 : BtDev)
    (hw : wildcardAwareDistinct s) (h : stepIdOp s op = some s1) :
    wildcardAwareDistinct s1 := by
  cases op with
  | create ao d =>
      simp only [stepIdOp] at h
      obtain ⟨⟨r, s2⟩, hrs, hsnd⟩ := Option.map_eq_some'.mp h
      exact hsnd ▸ wad_btIdCreate s ao d r s2 hw hrs
  | reset id ao d =>
      simp only [stepIdOp] at h
      obtain ⟨⟨r, s2⟩, hrs, hsnd⟩ := Option.map_eq_some'.mp h
      exact hsnd ▸ wad_btIdReset s id ao d r s2 hw hrs
  | delete id =>
      simp only [stepIdOp] at h
      exact Option.some.inj h ▸ wad_btIdDelete s id hw
  | setAddr a d =>
      simp only [stepIdOp, btSetIdAddr] at h
      by_cases hr : btAtomicTestbit s.flags BtFlag.ready
      · rw [if_pos hr] at h
        simp only [Option.map_some'] at h
        exact Option.some.inj h ▸ hw
      · rw [if_neg hr] at h
        obtain ⟨⟨r, s2⟩, hrs, hsnd⟩ := Option.map_eq_some'.mp h
        exact hsnd ▸ wad_btIdCreate s (some a) d r s2 hw hrs

theorem wad_runIdOps (ops : List IdOp) : ∀ s s', wildcardAwareDistinct s →
    runIdOps s ops = some s' → wildcardAwareDistinct s' := by
  induction ops with
  | nil =>
      intro s s' hw h
      exact Option.some.inj h ▸ hw
  | cons op rest ih =>
      intro s s' hw h
      unfold runIdOps at h
      cases hst : stepIdOp s op with
      | none =>
          rw [hst] at h
          exact absurd h (by simp)
      | some s1 =>
          rw [hst] at h
          exact ih s1 s' (wad_stepIdOp s op s1 hw hst) h

/-! ## Claim C3 -/

/-- Claim C3 (amended): after every terminating sequence of identity
operations (`bt_id_create`, `bt_id_reset`, `bt_id_delete`,
`bt_set_id_addr`) from the zero-initialised device of any capacity, no
two *non-wildcard* entries of `id_addr[0 .. id_count)` compare equal:
two equal in-range entries can only both be the wildcard address (the
holes left by interior deletes). -/
theorem c3_idtable_wildcard_distinct (cap : Nat) (ops : List IdOp) (s' : BtDev)
    (h : runIdOps (initState cap) ops = some s') :
    wildcardAwareDistinct s' := by
  apply wad_runIdOps ops (initState cap) s' _ h
  intro i j hi
  exact absurd hi (by simp [initState])

/-- Witness for C3 (amended): the invariant holds in the state reached
by the `exOpsC3` run. -/
theorem c3_idtable_wildcard_distinct_witness : wildcardAwareDistinct c3State :=
  c3_idtable_wildcard_distinct 4 exOpsC3 c3State (by decide)

/-- Counterexample to C3 as stated: starting from the zero-initialised
4-slot device, create four identities and delete the interior identities
1 and 2.  Both slots become the wildcard address while `id_count` stays
4, so entries 1 and 2 of `id_addr[0 .. id_count)` compare equal — the
claimed pairwise distinctness is violated. -/
theorem c3_counterexample :
    runIdOps (initState 4) exOpsC3 = some c3State ∧
    1 < c3State.idCount ∧ 2 < c3State.idCount ∧
    slot c3State 1 = slot c3State 2 ∧
    ¬ distinctIdentities c3State := by
  refine ⟨by decide, by decide, by decide, by decide, fun hd => ?_⟩
  exact hd 1 2 (by decide) (by decide) (by decide) (by decide)

/-! ## Claim C6 -/

theorem idCreate_concrete (s : BtDev) (id : Nat) (a : BtAddrLE)
    (draws : List (List Nat)) (ha : a ≠ BT_ADDR_LE_ANY) :
    idCreate s id (some a) draws = some { s with idAddr := s.idAddr.set id a } := by
  have hdef : idCreate s id (some a) draws
      = if a = BT_ADDR_LE_ANY then
          (genFresh s draws).map (fun na => { s with idAddr := s.idAddr.set id na })
        else some { s with idAddr := s.idAddr.set id a } := rfl
  rw [hdef, if_neg ha]

/-- Claim C6: `bt_id_create` rejects a concrete non-wildcard address
that is not static random with `-EINVAL`, rejects a duplicate with
`-EALREADY`, rejects a full table with `-ENOMEM`, and on success
(concrete or generated address) appends the new identity at index
`id_count`, increments the counter and returns that index. -/
theorem c6_id_create_checks (s : BtDev) (a : BtAddrLE) (draws : List (List Nat)) :
    (a ≠ BT_ADDR_LE_ANY → (a.type ≠ BT_ADDR_LE_RANDOM ∨ ¬ BT_ADDR_IS_STATIC a) →
      btIdCreate s (some a) draws = some (-EINVAL, s)) ∧
    (a ≠ BT_ADDR_LE_ANY → a.type = BT_ADDR_LE_RANDOM → BT_ADDR_IS_STATIC a = true →
      (idFind s a).isSome = true →
      btIdCreate s (some a) draws = some (-EALREADY, s)) ∧
    (a ≠ BT_ADDR_LE_ANY → a.type = BT_ADDR_LE_RANDOM → BT_ADDR_IS_STATIC a = true →
      idFind s a = none → s.idCount = s.idAddr.length →
      btIdCreate s (some a) draws = some (-ENOMEM, s)) ∧
    (a ≠ BT_ADDR_LE_ANY → a.type = BT_ADDR_LE_RANDOM → BT_ADDR_IS_STATIC a = true →
      idFind s a = none → s.idCount ≠ s.idAddr.length →
      ∃ s', btIdCreate s (some a) draws = some ((s.idCount : Int), s') ∧
        s'.idCount = s.idCount + 1 ∧ s'.idAddr = s.idAddr.set s.idCount a) ∧
    (∀ na, s.idCount ≠ s.idAddr.length →
      genFresh (idCreateBump s) draws = some na →
      ∃ s', btIdCreate s none draws = some ((s.idCount : Int), s') ∧
        s'.idCount = s.idCount + 1 ∧ s'.idAddr = s.idAddr.set s.idCount na) := by
  refine ⟨?_, ?_, ?_, ?_, ?_⟩
  · intro ha htype
    simp only [btIdCreate]
    rw [if_pos ha, if_pos htype]
  · intro ha htype hstatic hfound
    simp only [btIdCreate]
    rw [if_pos ha, if_neg (by simp [htype, hstatic]), if_pos hfound]
  · intro ha htype hstatic hnone hcap
    simp only [btIdCreate]
    rw [if_pos ha, if_neg (by simp [htype, hstatic]), if_neg (by simp [hnone])]
    unfold btIdCreateCore
    rw [if_pos hcap]
  · intro ha htype hstatic hnone hcap
    refine ⟨{ idCreateBump s with
      idAddr := (idCreateBump s).idAddr.set s.idCount a }, ?_, ?_, ?_⟩
    · simp only [btIdCreate]
      rw [if_pos ha, if_neg (by simp [htype, hstatic]), if_neg (by simp [hnone])]
      unfold btIdCreateCore
      rw [if_neg hcap]
      dsimp only
      rw [idCreate_concrete (idCreateBump s) s.idCount a draws ha]
      rfl
    · exact idCreateBump_idCount s
    · show (idCreateBump s).idAddr.set s.idCount a = _
      rw [idCreateBump_idAddr]
  · intro na hcap hgen
    refine ⟨{ idCreateBump s with
      idAddr := (idCreateBump s).idAddr.set s.idCount na }, ?_, ?_, ?_⟩
    · simp only [btIdCreate]
      unfold btIdCreateCore
      rw [if_neg hcap]
      dsimp only
      have hdef : idCreate (idCreateBump s) s.idCount none draws
          = (genFresh (idCreateBump s) draws).map
              (fun nb => { idCreateBump s with
                idAddr := (idCreateBump s).idAddr.set s.idCount nb }) := rfl
      rw [hdef, hgen]
      rfl
    · exact idCreateBump_idCount s
    · show (idCreateBump s).idAddr.set s.idCount na = _
      rw [idCreateBump_idAddr]

/-- Witness for C6: on a two-of-three-slot table, a public address is
rejected; the already-present `addrA` is rejected; on a full table a
fresh static address is rejected with `-ENOMEM`; on the non-full table
it is appended at index 2 with the counter reaching 3. -/
theorem c6_id_create_checks_witness :
    btIdCreate idDev (some ⟨BT_ADDR_LE_PUBLIC, [9, 0, 0, 0, 0, 0]⟩) []
      = some (-EINVAL, idDev) ∧
    btIdCreate idDev (some addrA) [] = some (-EALREADY, idDev) ∧
    btIdCreate fullIdDev (some addrC) [] = some (-ENOMEM, fullIdDev) ∧
    (∃ s', btIdCreate idDev (some addrC) [] = some ((idDev.idCount : Int), s') ∧
      s'.idCount = idDev.idCount + 1 ∧
      s'.idAddr = idDev.idAddr.set idDev.idCount addrC) :=
  ⟨(c6_id_create_checks idDev ⟨BT_ADDR_LE_PUBLIC, [9, 0, 0, 0, 0, 0]⟩ []).1
      (by decide) (by decide),
   (c6_id_create_checks idDev addrA []).2.1 (by decide) (by decide) (by decide)
      (by decide),
   (c6_id_create_checks fullIdDev addrC []).2.2.1 (by decide) (by decide)
      (by decide) (by decide) (by decide),
   (c6_id_create_checks idDev addrC []).2.2.2.1 (by decide) (by decide)
      (by decide) (by decide) (by decide)⟩

/-! ## Claim C7 -/

/-- Claim C7 (amended): `bt_id_delete` always fails on index 0 and on any
index at or above `id_count`; it fails `-EALREADY` on a slot already
holding the wildcard address and `-EBUSY` on the identity bound to active
advertising; on every other in-range index it succeeds, clears that slot
to the wildcard address, leaves all other slots unchanged and decrements
`id_count` by one exactly when the deleted index is `id_count - 1` (the
highest in-range index) — not when the deleted slot is merely the
occupied slot of highest index, and with no further compaction. -/
theorem c7_id_delete_spec (s : BtDev) (id : Nat) :
    (id = BT_ID_DEFAULT → btIdDelete s id = (-EINVAL, s)) ∧
    (s.idCount ≤ id → btIdDelete s id = (-EINVAL, s)) ∧
    (id ≠ BT_ID_DEFAULT → id < s.idCount → slot s id = BT_ADDR_LE_ANY →
      btIdDelete s id = (-EALREADY, s)) ∧
    (id ≠ BT_ID_DEFAULT → id < s.idCount → slot s id ≠ BT_ADDR_LE_ANY →
      id = s.advId → btAtomicTestbit s.flags BtFlag.advertising = true →
      btIdDelete s id = (-EBUSY, s)) ∧
    (id ≠ BT_ID_DEFAULT → id < s.idCount → slot s id ≠ BT_ADDR_LE_ANY →
      ¬ (id = s.advId ∧ btAtomicTestbit s.flags BtFlag.advertising) →
      (btIdDelete s id).1 = 0 ∧
      slot (btIdDelete s id).2 id = BT_ADDR_LE_ANY ∧
      (btIdDelete s id).2.idCount
        = (if id = s.idCount - 1 then s.idCount - 1 else s.idCount) ∧
      (∀ j, j ≠ id → slot (btIdDelete s id).2 j = slot s j)) := by
  have hclr : (s.idAddr.set id BT_ADDR_LE_ANY).getD id BT_ADDR_LE_ANY
      = BT_ADDR_LE_ANY := by
    rw [getD_set]
    by_cases hh : id < s.idAddr.length
    · rw [if_pos ⟨rfl, hh⟩]
    · rw [if_neg (fun hc => hh hc.2)]
      exact List.getD_eq_default _ _ (le_of_not_lt hh)
  have hoth : ∀ j, j ≠ id → (s.idAddr.set id BT_ADDR_LE_ANY).getD j BT_ADDR_LE_ANY
      = s.idAddr.getD j BT_ADDR_LE_ANY := by
    intro j hj
    rw [getD_set, if_neg (fun hc => hj hc.1)]
  refine ⟨?_, ?_, ?_, ?_, ?_⟩
  · intro h0
    unfold btIdDelete
    rw [if_pos (Or.inl h0)]
  · intro hout
    unfold btIdDelete
    rw [if_pos (Or.inr hout)]
  · intro h0 hin hany
    unfold btIdDelete
    have hcond : ¬ (id = BT_ID_DEFAULT ∨ s.idCount ≤ id) := by
      rintro (hc | hc)
      · exact h0 hc
      · omega
    rw [if_neg hcond, if_pos hany]
  · intro h0 hin hany hadv hbit
    unfold btIdDelete
    have hcond : ¬ (id = BT_ID_DEFAULT ∨ s.idCount ≤ id) := by
      rintro (hc | hc)
      · exact h0 hc
      · omega
    rw [if_neg hcond, if_neg hany, if_pos ⟨hadv, hbit⟩]
  · intro h0 hin hany hbusy
    unfold btIdDelete
    have hcond : ¬ (id = BT_ID_DEFAULT ∨ s.idCount ≤ id) := by
      rintro (hc | hc)
      · exact h0 hc
      · omega
    rw [if_neg hcond, if_neg hany, if_neg hbusy]
    by_cases hlast : id = s.idCount - 1
    · rw [if_pos hlast]
      exact ⟨rfl, hclr, by rw [if_pos hlast], fun j hj => hoth j hj⟩
    · rw [if_neg hlast]
      exact ⟨rfl, hclr, by rw [if_neg hlast], fun j hj => hoth j hj⟩

/-- Witness for C7 (amended): on `idDev` (slots `[A, B, any]`, count 2)
deleting identity 1 succeeds, clears the slot, and — since 1 = count-1 —
shrinks the count to 1; index 0 and out-of-range index 5 are rejected. -/
theorem c7_id_delete_spec_witness :
    btIdDelete idDev 0 = (-EINVAL, idDev) ∧
    btIdDelete idDev 5 = (-EINVAL, idDev) ∧
    (btIdDelete idDev 1).1 = 0 ∧
    slot (btIdDelete idDev 1).2 1 = BT_ADDR_LE_ANY ∧
    (btIdDelete idDev 1).2.idCount
      = (if 1 = idDev.idCount - 1 then idDev.idCount - 1 else idDev.idCount) :=
  ⟨(c7_id_delete_spec idDev 0).1 (by decide),
   (c7_id_delete_spec idDev 5).2.1 (by decide),
   ((c7_id_delete_spec idDev 1).2.2.2.2 (by decide) (by decide) (by decide)
      (by decide)).1,
   ((c7_id_delete_spec idDev 1).2.2.2.2 (by decide) (by decide) (by decide)
      (by decide)).2.1,
   ((c7_id_delete_spec idDev 1).2.2.2.2 (by decide) (by decide) (by decide)
      (by decide)).2.2.1⟩

/-- Counterexample to C7 as stated: in `c7State` (reached from the empty
4-slot device by four creates and deletes of identities 2 and 3) the
in-range slots are `[A, B, wildcard]` with `id_count = 3`: the occupied
slot of highest index is 1.  Deleting identity 1 — the last occupied
slot — succeeds but does *not* decrement `id_count` (1 ≠ id_count - 1),
contradicting "decrements ... exactly when the deleted slot was the last
occupied slot". -/
theorem c7_counterexample :
    runIdOps (initState 4) exOpsC7 = some c7State ∧
    c7State.idCount = 3 ∧
    slot c7State 2 = BT_ADDR_LE_ANY ∧
    slot c7State 1 ≠ BT_ADDR_LE_ANY ∧
    slot c7State 0 ≠ BT_ADDR_LE_ANY ∧
    (btIdDelete c7State 1).1 = 0 ∧
    (btIdDelete c7State 1).2.idCount = 3 := by
  refine ⟨by decide, by decide, by decide, by decide, by decide, by decide,
    by decide⟩
